import Mathlib

/-!
# Verification of the safe layer of libmpv-rs

A shallow embedding of the pure conversion logic of the `safe` module of
the `libmpv-rs` bindings (files `src/safe/error.rs`, `src/safe/util.rs`,
`src/safe/node.rs`, `src/safe/event.rs`, `src/safe/client.rs`), together
with theorems about the error classifier, the node encoder/decoder, the
event interpreter and `set_option`.

Modelling conventions:

* Machine integers are modelled as `Int` (for `c_int` / `i64` values) and
  `Nat` (for `c_uint` / `u64` / `usize` values); the two places where the
  Rust code performs a width-changing cast (`size as c_int` when encoding
  a node list, `num as usize` when decoding one) are modelled explicitly
  by `intCast32` and `usizeOfInt`.
* A foreign C string is `CStr`: either `.valid s` (a NUL-terminated byte
  run that is valid UTF-8 and decodes to the Rust string `s`, which hence
  contains no NUL character) or `.invalid` (not valid UTF-8).
* `f64` payloads are only ever moved, never computed with, by the code
  under study; they are modelled by their 64-bit patterns (a `Nat`).
* Fallible Rust functions returning `Option<T>` become `Option`-valued
  Lean functions.  Executions that abort (a `panic!`/`unwrap` failure or
  an `unreachable!`), and executions that are undefined in the source
  (dereferencing a pointer outside the foreign contract), are mapped to a
  distinguished abnormal outcome (`EncOut.panicked`, or `none` at the
  outermost level of the event interpreter); theorems about normal
  results never rely on the undefined cases.
-/

set_option linter.dupNamespace false
set_option linter.unreachableTactic false
set_option linter.unnecessarySeqFocus false
set_option linter.unusedTactic false

namespace LibMpv

/-- A Rust `String` (always valid UTF-8; may contain interior NULs). -/
abbrev RStr := String

/-- `true` iff the string contains an interior NUL byte, the condition under
which `CString::new` fails in `make_c_string` (src/safe/util.rs). -/
def hasNull (s : RStr) : Bool := s.data.contains (Char.ofNat 0)

/-- A foreign NUL-terminated C string: either valid UTF-8 decoding to `s`
(and, being a C string, free of interior NULs), or invalid UTF-8. -/
inductive CStr where
  | valid (s : RStr)
  | invalid
  deriving DecidableEq, Repr

/-- `make_rust_string` (src/safe/util.rs): take ownership of a C string and
convert it to a Rust `String`; `None` on invalid UTF-8. -/
def make_rust_string : CStr → Option RStr
  | .valid s => some s
  | .invalid => none

/-- `make_rust_string_const` (src/safe/util.rs): same conversion as
`make_rust_string`, from a borrowed pointer. -/
def make_rust_string_const : CStr → Option RStr
  | .valid s => some s
  | .invalid => none

/-- `make_c_string` (src/safe/util.rs): `CString::new` fails exactly when
the string has an interior NUL; otherwise the C string holds the same
bytes, hence decodes back to `s`. -/
def make_c_string (s : RStr) : Option CStr :=
  if hasNull s then none else some (.valid s)

/-! ## Error codes (src/raw/consts.rs, src/safe/error.rs)

`mpv_error` is a `c_int`; the named codes are `0` and `-1` … `-20`. -/

def mpv_error_MPV_ERROR_SUCCESS : Int := 0
def mpv_error_MPV_ERROR_EVENT_QUEUE_FULL : Int := -1
def mpv_error_MPV_ERROR_NOMEM : Int := -2
def mpv_error_MPV_ERROR_UNINITIALIZED : Int := -3
def mpv_error_MPV_ERROR_INVALID_PARAMETER : Int := -4
def mpv_error_MPV_ERROR_OPTION_NOT_FOUND : Int := -5
def mpv_error_MPV_ERROR_OPTION_FORMAT : Int := -6
def mpv_error_MPV_ERROR_OPTION_ERROR : Int := -7
def mpv_error_MPV_ERROR_PROPERTY_NOT_FOUND : Int := -8
def mpv_error_MPV_ERROR_PROPERTY_FORMAT : Int := -9
def mpv_error_MPV_ERROR_PROPERTY_UNAVAILABLE : Int := -10
def mpv_error_MPV_ERROR_PROPERTY_ERROR : Int := -11
def mpv_error_MPV_ERROR_COMMAND : Int := -12
def mpv_error_MPV_ERROR_LOADING_FAILED : Int := -13
def mpv_error_MPV_ERROR_AO_INIT_FAILED : Int := -14
def mpv_error_MPV_ERROR_VO_INIT_FAILED : Int := -15
def mpv_error_MPV_ERROR_NOTHING_TO_PLAY : Int := -16
def mpv_error_MPV_ERROR_UNKNOWN_FORMAT : Int := -17
def mpv_error_MPV_ERROR_UNSUPPORTED : Int := -18
def mpv_error_MPV_ERROR_NOT_IMPLEMENTED : Int := -19
def mpv_error_MPV_ERROR_GENERIC : Int := -20

/-- The `MpvError` enum (src/safe/error.rs). -/
inductive MpvError where
  | EventQueueFull
  | NoMemory
  | Uninitialized
  | InvalidParameter
  | OptionNotFound
  | OptionFormatUnsupported
  | OptionError
  | PropertyNotFound
  | PropertyNotSupported
  | PropertyUnavailable
  | PropertyError
  | CommandError
  | LoadingFailed
  | AudioOutputInitFailed
  | VideoOutputInitFailed
  | NothingToPlay
  | UnknownFormat
  | Unsupported
  | NotImplemented
  | Unspecified
  deriving DecidableEq, Repr

/-- `MpvError::from_mpv_error` (src/safe/error.rs): the Rust `match` on the
status code, arm for arm; the wildcard arm yields `Unspecified`. -/
def MpvError.from_mpv_error (status : Int) : Option MpvError :=
  if status = mpv_error_MPV_ERROR_SUCCESS then none
  else if status = mpv_error_MPV_ERROR_EVENT_QUEUE_FULL then some .EventQueueFull
  else if status = mpv_error_MPV_ERROR_NOMEM then some .NoMemory
  else if status = mpv_error_MPV_ERROR_UNINITIALIZED then some .Uninitialized
  else if status = mpv_error_MPV_ERROR_INVALID_PARAMETER then some .InvalidParameter
  else if status = mpv_error_MPV_ERROR_OPTION_NOT_FOUND then some .OptionNotFound
  else if status = mpv_error_MPV_ERROR_OPTION_FORMAT then some .OptionFormatUnsupported
  else if status = mpv_error_MPV_ERROR_OPTION_ERROR then some .OptionError
  else if status = mpv_error_MPV_ERROR_PROPERTY_NOT_FOUND then some .PropertyNotFound
  else if status = mpv_error_MPV_ERROR_PROPERTY_FORMAT then some .PropertyNotSupported
  else if status = mpv_error_MPV_ERROR_PROPERTY_UNAVAILABLE then some .PropertyUnavailable
  else if status = mpv_error_MPV_ERROR_PROPERTY_ERROR then some .PropertyError
  else if status = mpv_error_MPV_ERROR_COMMAND then some .CommandError
  else if status = mpv_error_MPV_ERROR_LOADING_FAILED then some .LoadingFailed
  else if status = mpv_error_MPV_ERROR_AO_INIT_FAILED then some .AudioOutputInitFailed
  else if status = mpv_error_MPV_ERROR_VO_INIT_FAILED then some .VideoOutputInitFailed
  else if status = mpv_error_MPV_ERROR_NOTHING_TO_PLAY then some .NothingToPlay
  else if status = mpv_error_MPV_ERROR_UNKNOWN_FORMAT then some .UnknownFormat
  else if status = mpv_error_MPV_ERROR_UNSUPPORTED then some .Unsupported
  else if status = mpv_error_MPV_ERROR_NOT_IMPLEMENTED then some .NotImplemented
  else some .Unspecified

/-! ## Formats and nodes (src/raw/consts.rs, src/raw/types.rs, src/safe/node.rs)

`mpv_format` is a `c_uint`. -/

def mpv_format_MPV_FORMAT_NONE : Nat := 0
def mpv_format_MPV_FORMAT_STRING : Nat := 1
def mpv_format_MPV_FORMAT_OSD_STRING : Nat := 2
def mpv_format_MPV_FORMAT_FLAG : Nat := 3
def mpv_format_MPV_FORMAT_INT64 : Nat := 4
def mpv_format_MPV_FORMAT_DOUBLE : Nat := 5
def mpv_format_MPV_FORMAT_NODE : Nat := 6
def mpv_format_MPV_FORMAT_NODE_ARRAY : Nat := 7
def mpv_format_MPV_FORMAT_NODE_MAP : Nat := 8
def mpv_format_MPV_FORMAT_BYTE_ARRAY : Nat := 9

/-- `size as c_int` (the `num: size as _` cast in `Node::to_mpv_node`):
two's-complement wrap of a `usize` into the `i32` range. -/
def intCast32 (n : Nat) : Int := ((n : Int) + 2 ^ 31) % 2 ^ 32 - 2 ^ 31

/-- `num as usize` (the loop bound cast in `Node::from_mpv_node`): a
two's-complement wrap of an `i32` value into the `u64 = usize` range. -/
def usizeOfInt (i : Int) : Nat := (i % 2 ^ 64).toNat

/-- A foreign `mpv_node` (src/raw/types.rs): the `format` tag together with
the union member it selects.  Pointer-valued members fold their possible
NULness into the model:
* `mbaNull` / `marrNull` / `mmapNull` are nodes whose `u.ba` / `u.list`
  pointer is NULL;
* `mba bytes` is a non-NULL `mpv_byte_array` whose `data`/`size` describe
  the byte run `bytes`;
* `marr` / `mmap` carry the three `mpv_node_list` fields, `values` and
  `keys` being `none` when the corresponding pointer is NULL and otherwise
  the entries the pointed-to memory holds;
* `mother fmt` is a node with any format tag other than the eight the
  decoder recognizes (its union content is never inspected). -/
inductive MNode where
  | mstring (c : CStr)
  | mosd (c : CStr)
  | mflag (i : Int)
  | mint64 (i : Int)
  | mdouble (d : Nat)
  | mbaNull
  | mba (bytes : List Nat)
  | marrNull
  | marr (num : Int) (values : Option (List MNode)) (keys : Option (List CStr))
  | mmapNull
  | mmap (num : Int) (values : Option (List MNode)) (keys : Option (List CStr))
  | mother (fmt : Nat)

/-- The `Node` enum (src/safe/node.rs).  `Map` is a `HashMap<String, Node>`
in the source; it is modelled as its underlying association list (iteration
order made explicit, key uniqueness being the `HashMap` invariant is a
hypothesis where it matters).  `Float64` carries the `f64` bit pattern. -/
inductive Node where
  | String (s : RStr)
  | OsdString (s : RStr)
  | Flag (b : Bool)
  | Int64 (i : Int)
  | Float64 (d : Nat)
  | Array (l : List Node)
  | ByteArray (b : List Nat)
  | Map (m : List (RStr × Node))
  | Node (n : Node)

/-- `HashMap::insert` on the association-list model: overwrite the value at
an existing key, otherwise append the new binding. -/
def mapInsert (m : List (RStr × Node)) (k : RStr) (v : Node) : List (RStr × Node) :=
  match m with
  | [] => [(k, v)]
  | (k', v') :: rest => if k' = k then (k, v) :: rest else (k', v') :: mapInsert rest k v

mutual

/-- `Node::from_mpv_node` (src/safe/node.rs), branch for branch.  The
collection branches return `None` for a NULL list pointer, leave the
collection empty when `values` is NULL, and otherwise run the decoding
loops below. -/
def Node.from_mpv_node : MNode → Option Node
  | .mstring c => match make_rust_string c with
      | none => none
      | some s => some (.String s)
  | .mosd c => match make_rust_string c with
      | none => none
      | some s => some (.OsdString s)
  | .mflag i => some (.Flag (i ≠ 0))
  | .mint64 i => some (.Int64 i)
  | .mdouble d => some (.Float64 d)
  | .mbaNull => none
  | .mba bytes => some (.ByteArray bytes)
  | .marrNull => none
  | .marr num values _keys =>
      match values with
      | none => some (.Array [])
      | some vs => some (.Array (decodeArrLoop (usizeOfInt num) vs))
  | .mmapNull => none
  | .mmap num values keys =>
      match values with
      | none => some (.Map [])
      | some vs => some (.Map (decodeMapLoop (usizeOfInt num) vs (keys.getD []) []))
  | .mother _fmt => none

/-- The `NODE_ARRAY` loop of `Node::from_mpv_node`: `for i in 0..num`,
pushing each element that decodes.  Iteration also stops at the end of the
model's entry list — the source would read out of bounds there, which the
foreign contract (`values[0]` … `values[num-1]` are valid) rules out. -/
def decodeArrLoop : Nat → List MNode → List Node
  | 0, _ => []
  | _ + 1, [] => []
  | n + 1, v :: vs =>
      match Node.from_mpv_node v with
      | none => decodeArrLoop n vs
      | some nd => nd :: decodeArrLoop n vs

/-- The `NODE_MAP` loop of `Node::from_mpv_node`: `for i in 0..num`,
inserting `keys[i] ↦ values[i]` when the value decodes and the key is
valid UTF-8.  `keys[i]` is only read after the value decoded (as in the
source); a missing key entry (NULL or too-short `keys`, excluded by the
foreign contract) skips the binding. -/
def decodeMapLoop : Nat → List MNode → List CStr → List (RStr × Node) → List (RStr × Node)
  | 0, _, _, acc => acc
  | _ + 1, [], _, acc => acc
  | n + 1, v :: vs, ks, acc =>
      match Node.from_mpv_node v with
      | none => decodeMapLoop n vs ks.tail acc
      | some nd =>
          match ks.head? with
          | none => decodeMapLoop n vs ks.tail acc
          | some k =>
              match make_rust_string k with
              | none => decodeMapLoop n vs ks.tail acc
              | some key => decodeMapLoop n vs ks.tail (mapInsert acc key nd)

end

/-- Outcome of `Node::to_mpv_node` (src/safe/node.rs): a successful
conversion, a conversion failure (`None`), or an aborted execution (the
`unwrap` on a map key or the `unreachable!` on `Node::Node`). -/
inductive EncOut where
  | ok (m : MNode)
  | fail
  | panicked

mutual

/-- `Node::to_mpv_node` (src/safe/node.rs), branch for branch.  Collection
branches leak the freshly built vectors and store `num = len as c_int`;
`Array` leaves `keys` NULL; `Node::Node` hits `unreachable!`. -/
def Node.to_mpv_node : Node → EncOut
  | .String s => match make_c_string s with
      | none => .fail
      | some c => .ok (.mstring c)
  | .OsdString s => match make_c_string s with
      | none => .fail
      | some c => .ok (.mosd c)
  | .Flag b => .ok (.mflag (if b then 1 else 0))
  | .Int64 i => .ok (.mint64 i)
  | .Float64 d => .ok (.mdouble d)
  | .Array l =>
      match encArrLoop l with
      | none => .panicked
      | some data => .ok (.marr (intCast32 data.length) (some data) none)
  | .ByteArray b => .ok (.mba b)
  | .Map m =>
      match encMapLoop m with
      | none => .panicked
      | some (data, keys) => .ok (.mmap (intCast32 data.length) (some data) (some keys))
  | .Node _ => .panicked

/-- The `Array` loop of `Node::to_mpv_node`: push each child that encodes,
drop children whose encoding fails; a child whose encoding aborts aborts
the whole loop (`none`). -/
def encArrLoop : List Node → Option (List MNode)
  | [] => some []
  | n :: rest =>
      match Node.to_mpv_node n with
      | .panicked => none
      | .fail => encArrLoop rest
      | .ok m => (encArrLoop rest).map (m :: ·)

/-- The `Map` loop of `Node::to_mpv_node`: for each entry whose value
encodes, push the value and `make_c_string(key).unwrap()` — so a kept
entry whose key has an interior NUL aborts (`none`), as does an aborting
value encoding; entries whose value encoding fails are dropped. -/
def encMapLoop : List (RStr × Node) → Option (List MNode × List CStr)
  | [] => some ([], [])
  | (k, n) :: rest =>
      match Node.to_mpv_node n with
      | .panicked => none
      | .fail => encMapLoop rest
      | .ok m =>
          match make_c_string k with
          | none => none
          | some ck => (encMapLoop rest).map (fun p => (m :: p.1, ck :: p.2))

end

/-! ## Properties and events (src/raw/types.rs, src/safe/node.rs, src/safe/event.rs) -/

/-- The safe `Property` struct (src/safe/node.rs). -/
structure Property where
  name : RStr
  data : Option Node

/-- A foreign `mpv_event_property` (src/raw/types.rs).  The source rebuilds
an `mpv_node` out of the `format` field and the union blob behind the
`data` pointer; the model fuses the two into `data : Option MNode`, `none`
standing for a NULL `data` pointer. -/
structure MEventProperty where
  name : CStr
  data : Option MNode

/-- `Property::from_mpv_property` (src/safe/node.rs): fail on a non-UTF-8
name; a NULL `data` pointer gives `data = None`; otherwise decode the
reassembled node (`data = Node::from_mpv_node(..)`, possibly `None`). -/
def Property.from_mpv_property (p : MEventProperty) : Option Property :=
  match make_rust_string_const p.name with
  | none => none
  | some nm =>
      match p.data with
      | none => some ⟨nm, none⟩
      | some nd => some ⟨nm, Node.from_mpv_node nd⟩

def mpv_log_level_MPV_LOG_LEVEL_NONE : Nat := 0
def mpv_log_level_MPV_LOG_LEVEL_FATAL : Nat := 10
def mpv_log_level_MPV_LOG_LEVEL_ERROR : Nat := 20
def mpv_log_level_MPV_LOG_LEVEL_WARN : Nat := 30
def mpv_log_level_MPV_LOG_LEVEL_INFO : Nat := 40
def mpv_log_level_MPV_LOG_LEVEL_V : Nat := 50
def mpv_log_level_MPV_LOG_LEVEL_DEBUG : Nat := 60
def mpv_log_level_MPV_LOG_LEVEL_TRACE : Nat := 70

/-- The `LogLevel` enum (src/safe/event.rs). -/
inductive LogLevel where
  | None | Fatal | Error | Warn | Info | Noise | Debug | Trace
  deriving DecidableEq, Repr

/-- `LogLevel::from_mpv_log_level` (src/safe/event.rs). -/
def LogLevel.from_mpv_log_level (level : Nat) : Option LogLevel :=
  if level = mpv_log_level_MPV_LOG_LEVEL_NONE then some .None
  else if level = mpv_log_level_MPV_LOG_LEVEL_FATAL then some .Fatal
  else if level = mpv_log_level_MPV_LOG_LEVEL_ERROR then some .Error
  else if level = mpv_log_level_MPV_LOG_LEVEL_WARN then some .Warn
  else if level = mpv_log_level_MPV_LOG_LEVEL_INFO then some .Info
  else if level = mpv_log_level_MPV_LOG_LEVEL_V then some .Noise
  else if level = mpv_log_level_MPV_LOG_LEVEL_DEBUG then some .Debug
  else if level = mpv_log_level_MPV_LOG_LEVEL_TRACE then some .Trace
  else none

def mpv_end_file_reason_MPV_END_FILE_REASON_EOF : Nat := 0
def mpv_end_file_reason_MPV_END_FILE_REASON_STOP : Nat := 2
def mpv_end_file_reason_MPV_END_FILE_REASON_QUIT : Nat := 3
def mpv_end_file_reason_MPV_END_FILE_REASON_ERROR : Nat := 4
def mpv_end_file_reason_MPV_END_FILE_REASON_REDIRECT : Nat := 5

/-- The `EndFileReason` enum (src/safe/event.rs). -/
inductive EndFileReason where
  | EOF
  | Stop
  | Quit
  | Error (e : MpvError)
  | Redirect
  deriving DecidableEq, Repr

/-- `EndFileReason::from_mpv_end_file_reason` (src/safe/event.rs).  The
source's `error.unwrap()` panic (reason `ERROR` with no error value) is
collapsed into `none`: the only caller immediately `unwrap`s the result,
so both failure modes abort the surrounding event interpretation. -/
def EndFileReason.from_mpv_end_file_reason (level : Nat) (error : Option MpvError) :
    Option EndFileReason :=
  if level = mpv_end_file_reason_MPV_END_FILE_REASON_EOF then some .EOF
  else if level = mpv_end_file_reason_MPV_END_FILE_REASON_STOP then some .Stop
  else if level = mpv_end_file_reason_MPV_END_FILE_REASON_QUIT then some .Quit
  else if level = mpv_end_file_reason_MPV_END_FILE_REASON_ERROR then
    match error with
    | some e => some (.Error e)
    | none => none
  else if level = mpv_end_file_reason_MPV_END_FILE_REASON_REDIRECT then some .Redirect
  else none

def mpv_event_id_MPV_EVENT_SHUTDOWN : Nat := 1
def mpv_event_id_MPV_EVENT_LOG_MESSAGE : Nat := 2
def mpv_event_id_MPV_EVENT_GET_PROPERTY_REPLY : Nat := 3
def mpv_event_id_MPV_EVENT_SET_PROPERTY_REPLY : Nat := 4
def mpv_event_id_MPV_EVENT_COMMAND_REPLY : Nat := 5
def mpv_event_id_MPV_EVENT_START_FILE : Nat := 6
def mpv_event_id_MPV_EVENT_END_FILE : Nat := 7
def mpv_event_id_MPV_EVENT_FILE_LOADED : Nat := 8
def mpv_event_id_MPV_EVENT_IDLE : Nat := 11
def mpv_event_id_MPV_EVENT_TICK : Nat := 14
def mpv_event_id_MPV_EVENT_CLIENT_MESSAGE : Nat := 16
def mpv_event_id_MPV_EVENT_VIDEO_RECONFIG : Nat := 17
def mpv_event_id_MPV_EVENT_AUDIO_RECONFIG : Nat := 18
def mpv_event_id_MPV_EVENT_SEEK : Nat := 20
def mpv_event_id_MPV_EVENT_PLAYBACK_RESTART : Nat := 21
def mpv_event_id_MPV_EVENT_PROPERTY_CHANGE : Nat := 22
def mpv_event_id_MPV_EVENT_QUEUE_OVERFLOW : Nat := 24
def mpv_event_id_MPV_EVENT_HOOK : Nat := 25

/-- A foreign `mpv_event_log_message` (src/raw/types.rs); the Rust keyword
field `prefix` is rendered `prefix_`. -/
structure MLogMessage where
  prefix_ : CStr
  level : CStr
  text : CStr
  log_level : Nat

/-- The typed content behind an `mpv_event.data` pointer, by event kind
(the `*mut c_void` is cast to the kind-specific struct in the source; a
`mpv_event_command` is read through its single `mpv_node` field). -/
inductive MEventData where
  | prop (p : MEventProperty)
  | logMsg (m : MLogMessage)
  | command (n : MNode)
  | startFile (playlist_entry_id : Int)
  | endFile (reason : Nat) (error : Int) (playlist_entry_id : Int)
      (playlist_insert_id : Int) (playlist_insert_num_entries : Int)
  | clientMsg (num_args : Int) (args : List CStr)
  | hook (name : CStr) (id : Nat)

/-- A foreign `mpv_event` (src/raw/types.rs); `data = none` is a NULL
payload pointer. -/
structure MEvent where
  event_id : Nat
  error : Int
  reply_userdata : Nat
  data : Option MEventData

/-- The safe `Event` enum (src/safe/event.rs); Rust `Result` is `Except`. -/
inductive Event where
  | Shutdown
  | LogMessage (prefix_ level text : RStr) (log_level : LogLevel)
  | GetPropertyReply (result : Except MpvError (Option Property)) (reply_userdata : Nat)
  | SetPropertyReply (result : Except MpvError (Option Property)) (reply_userdata : Nat)
  | CommandReply (result : Except MpvError (Option Node)) (reply_userdata : Nat)
  | StartFile (playlist_entry_id : Int)
  | EndFile (reason : EndFileReason) (playlist_entry_id : Int)
      (playlist_insert_id : Int) (playlist_insert_num_entries : Int)
  | FileLoaded
  | Idle
  | Tick
  | ClientMessage (args : List RStr)
  | VideoReconfig
  | AudioReconfig
  | Seek
  | PlaybackRestart
  | PropertyChange (result : Except MpvError (Option Property)) (reply_userdata : Nat)
  | QueueOverflow
  | Hook (name : RStr) (id : Nat) (reply_userdata : Nat)

/-- A foreign deallocation performed by `Event::from_mpv_event`:
`mpv_free` on the event's `data` payload pointer, or `mpv_free` on the
argument array inside a client-message payload. -/
inductive FCall where
  | freeData
  | freeArgs
  deriving DecidableEq, Repr

/-- The argument loop of the `CLIENT_MESSAGE` branch: read
`num_args` strings, `unwrap`ping each conversion (abort on invalid UTF-8);
running past the model's argument list is an out-of-bounds read in the
source (excluded by the foreign contract) and also maps to `none`. -/
def clientMsgLoop : Nat → List CStr → Option (List RStr)
  | 0, _ => some []
  | _ + 1, [] => none
  | n + 1, c :: rest =>
      match make_rust_string_const c with
      | none => none
      | some s => (clientMsgLoop n rest).map (s :: ·)

/-- The `match event_id` of `Event::from_mpv_event` (src/safe/event.rs),
producing the `res` value together with the branch-local foreign frees
(the `CLIENT_MESSAGE` branch frees its argument array).  `none` is an
aborted execution: a `panic!` on a mandatory NULL payload, a failed
`unwrap`, or (only outside the foreign contract) an ill-typed payload. -/
def eventBranch (e : MEvent) : Option (Option Event × List FCall) :=
  if e.event_id = mpv_event_id_MPV_EVENT_SHUTDOWN then some (some .Shutdown, [])
  else if e.event_id = mpv_event_id_MPV_EVENT_LOG_MESSAGE then
    match e.data with
    | some (.logMsg m) =>
        match make_rust_string_const m.prefix_, make_rust_string_const m.level,
            make_rust_string_const m.text, LogLevel.from_mpv_log_level m.log_level with
        | some p, some l, some t, some ll => some (some (.LogMessage p l t ll), [])
        | _, _, _, _ => none
    | _ => none
  else if e.event_id = mpv_event_id_MPV_EVENT_GET_PROPERTY_REPLY then
    match MpvError.from_mpv_error e.error with
    | some err => some (some (.GetPropertyReply (.error err) e.reply_userdata), [])
    | none =>
        match e.data with
        | some (.prop p) =>
            some (some (.GetPropertyReply (.ok (Property.from_mpv_property p)) e.reply_userdata), [])
        | _ => none
  else if e.event_id = mpv_event_id_MPV_EVENT_SET_PROPERTY_REPLY then
    match MpvError.from_mpv_error e.error with
    | some err => some (some (.SetPropertyReply (.error err) e.reply_userdata), [])
    | none =>
        match e.data with
        | some (.prop p) =>
            some (some (.SetPropertyReply (.ok (Property.from_mpv_property p)) e.reply_userdata), [])
        | _ => none
  else if e.event_id = mpv_event_id_MPV_EVENT_COMMAND_REPLY then
    match MpvError.from_mpv_error e.error with
    | some err => some (some (.CommandReply (.error err) e.reply_userdata), [])
    | none =>
        match e.data with
        | some (.command n) =>
            some (some (.CommandReply (.ok (Node.from_mpv_node n)) e.reply_userdata), [])
        | _ => none
  else if e.event_id = mpv_event_id_MPV_EVENT_START_FILE then
    match e.data with
    | some (.startFile id) => some (some (.StartFile id), [])
    | _ => none
  else if e.event_id = mpv_event_id_MPV_EVENT_END_FILE then
    match e.data with
    | some (.endFile reason error peid piid pine) =>
        match EndFileReason.from_mpv_end_file_reason reason (MpvError.from_mpv_error error) with
        | none => none
        | some r => some (some (.EndFile r peid piid pine), [])
    | _ => none
  else if e.event_id = mpv_event_id_MPV_EVENT_FILE_LOADED then some (some .FileLoaded, [])
  else if e.event_id = mpv_event_id_MPV_EVENT_IDLE then some (some .Idle, [])
  else if e.event_id = mpv_event_id_MPV_EVENT_TICK then some (some .Tick, [])
  else if e.event_id = mpv_event_id_MPV_EVENT_CLIENT_MESSAGE then
    match e.data with
    | some (.clientMsg num args) =>
        match clientMsgLoop (usizeOfInt num) args with
        | none => none
        | some ss => some (some (.ClientMessage ss), [.freeArgs])
    | _ => none
  else if e.event_id = mpv_event_id_MPV_EVENT_VIDEO_RECONFIG then some (some .VideoReconfig, [])
  else if e.event_id = mpv_event_id_MPV_EVENT_AUDIO_RECONFIG then some (some .AudioReconfig, [])
  else if e.event_id = mpv_event_id_MPV_EVENT_SEEK then some (some .Seek, [])
  else if e.event_id = mpv_event_id_MPV_EVENT_PLAYBACK_RESTART then some (some .PlaybackRestart, [])
  else if e.event_id = mpv_event_id_MPV_EVENT_PROPERTY_CHANGE then
    match MpvError.from_mpv_error e.error with
    | some err => some (some (.PropertyChange (.error err) e.reply_userdata), [])
    | none =>
        match e.data with
        | some (.prop p) =>
            some (some (.PropertyChange (.ok (Property.from_mpv_property p)) e.reply_userdata), [])
        | _ => none
  else if e.event_id = mpv_event_id_MPV_EVENT_QUEUE_OVERFLOW then some (some .QueueOverflow, [])
  else if e.event_id = mpv_event_id_MPV_EVENT_HOOK then
    match e.data with
    | some (.hook name id) =>
        match make_rust_string_const name with
        | none => none
        | some nm => some (some (.Hook nm id e.reply_userdata), [])
    | _ => none
  else some (none, [])

/-- `Event::from_mpv_event` (src/safe/event.rs): run the `match` above,
then — on every execution that reaches the function's tail — `mpv_free`
the `data` pointer iff it is non-NULL.  The result pairs the returned
`Option<Event>` with the ordered trace of foreign frees; `none` is an
aborted (panicking) execution, which never reaches the tail free. -/
def Event.from_mpv_event (e : MEvent) : Option (Option Event × List FCall) :=
  match eventBranch e with
  | none => none
  | some (res, tr) => some (res, tr ++ if e.data.isSome then [.freeData] else [])

/-! ## `set_option` (src/safe/client.rs) -/

/-- A foreign call made by `MpvHandle::set_option`. -/
inductive SCall where
  | mpv_set_option
  | free_name
  | free_data
  deriving DecidableEq, Repr

/-- `MpvHandle::set_option` (src/safe/client.rs), named `setOption` here
because `set_option` is a Lean keyword.  `status` is the value
the foreign `mpv_set_option` call returns when it is reached (an oracle
parameter of the model).  The result pairs the ordered foreign-call trace
with the returned error option; `none` is an aborted execution
(`CString::new(name).unwrap()` on a name with an interior NUL, or an
aborting node encoding). -/
def setOption (name : RStr) (node : Node) (status : Int) :
    Option (List SCall × Option MpvError) :=
  if hasNull name then none
  else
    match Node.to_mpv_node node with
    | .panicked => none
    | .fail => some ([], some .OptionError)
    | .ok _raw => some ([.mpv_set_option, .free_name, .free_data], MpvError.from_mpv_error status)

/-! ## Theorems -/

/-- C1.  The claim states that `MpvError::from_mpv_error` returns `None`
for every status `>= 0`, including positive informational returns.  The
code only maps `0` to `None`: any positive status falls through to the
wildcard arm and is classified `Some(Unspecified)` — contradicting the
claim and the repository's own documentation (src/raw/types.rs: "0 and
positive return values always mean success").  Evaluated at the failing
input `status = 1`; the recognized-negative and unrecognized-negative
parts of the claim do hold and are included. -/
theorem from_mpv_error_positive_status_misclassified :
    MpvError.from_mpv_error 1 = some MpvError.Unspecified ∧
    MpvError.from_mpv_error 0 = none ∧
    MpvError.from_mpv_error (-1) = some MpvError.EventQueueFull ∧
    MpvError.from_mpv_error (-19) = some MpvError.NotImplemented ∧
    MpvError.from_mpv_error (-20) = some MpvError.Unspecified ∧
    MpvError.from_mpv_error (-21) = some MpvError.Unspecified := by
  refine ⟨rfl, rfl, rfl, rfl, rfl, rfl⟩

/-- C8.  Decoding a foreign node whose format tag is none of the eight
recognized tags yields `None`; the decoder is a total function into
`Option` (it contains no panic), so no execution of it aborts. -/
theorem from_mpv_node_unrecognized_format (fmt : Nat)
    (_h : fmt ∉ [mpv_format_MPV_FORMAT_STRING, mpv_format_MPV_FORMAT_OSD_STRING,
      mpv_format_MPV_FORMAT_FLAG, mpv_format_MPV_FORMAT_INT64,
      mpv_format_MPV_FORMAT_DOUBLE, mpv_format_MPV_FORMAT_NODE_ARRAY,
      mpv_format_MPV_FORMAT_NODE_MAP, mpv_format_MPV_FORMAT_BYTE_ARRAY]) :
    Node.from_mpv_node (.mother fmt) = none := rfl

/-- Witness for C8 at the format tag `MPV_FORMAT_NODE = 6`, which the
decoder indeed does not recognize. -/
theorem from_mpv_node_unrecognized_format_witness :
    mpv_format_MPV_FORMAT_NODE ∉ [mpv_format_MPV_FORMAT_STRING,
      mpv_format_MPV_FORMAT_OSD_STRING, mpv_format_MPV_FORMAT_FLAG,
      mpv_format_MPV_FORMAT_INT64, mpv_format_MPV_FORMAT_DOUBLE,
      mpv_format_MPV_FORMAT_NODE_ARRAY, mpv_format_MPV_FORMAT_NODE_MAP,
      mpv_format_MPV_FORMAT_BYTE_ARRAY] ∧
    Node.from_mpv_node (.mother mpv_format_MPV_FORMAT_NODE) = none :=
  ⟨by decide, from_mpv_node_unrecognized_format mpv_format_MPV_FORMAT_NODE (by decide)⟩

/-- C10.  A foreign property record with a valid UTF-8 name and a NULL
`data` pointer converts to `Some` of a `Property` whose `data` is `None`. -/
theorem from_mpv_property_null_data (s : RStr) :
    Property.from_mpv_property ⟨.valid s, none⟩ = some ⟨s, none⟩ := rfl

/-- C2, counterexample.  The claim states that collection encoding never
fails or panics once started, in particular for a map entry whose key
contains an embedded NUL.  In the code the key of every retained entry is
converted with `make_c_string(key).unwrap()`, so a retained entry whose
key has an interior NUL aborts the encoding. -/
theorem to_mpv_node_map_null_key_panics :
    Node.to_mpv_node (.Map [("\x00", .Flag true)]) = .panicked := rfl

/-- C9, counterexample.  The claim quantifies over every option name; but
`set_option` converts the *name* with `CString::new(name).unwrap()` before
looking at the node, so a name with an interior NUL aborts instead of
returning `Some(OptionError)` — even though the node's encoding fails. -/
theorem setOption_null_name_aborts :
    Node.to_mpv_node (.String "\x00a") = .fail ∧
    setOption "\x00" (.String "\x00a") 0 = none :=
  ⟨rfl, rfl⟩

/-- C9, amended.  For every option name free of interior NULs, when the
node's encoding fails (`to_mpv_node` returns `None`), `set_option` returns
`Some(OptionError)` and issues no foreign call at all (in particular not
the option-setting call). -/
theorem setOption_encode_failure_option_error (name : RStr) (node : Node) (status : Int)
    (hn : hasNull name = false) (he : Node.to_mpv_node node = .fail) :
    setOption name node status = some ([], some .OptionError) := by
  simp [setOption, hn, he]

/-- Witness for the amended C9 at name `"vo"` and a top-level string node
with an embedded NUL. -/
theorem setOption_encode_failure_option_error_witness :
    hasNull "vo" = false ∧ Node.to_mpv_node (.String "\x00") = .fail ∧
    setOption "vo" (.String "\x00") 0 = some ([], some .OptionError) :=
  ⟨rfl, rfl, setOption_encode_failure_option_error "vo" (.String "\x00") 0 rfl rfl⟩

/-- The `Array` encoding loop keeps exactly the children whose encoding
succeeds, in order, provided no child's encoding aborts. -/
theorem encArrLoop_eq_filterMap (l : List Node)
    (h : ∀ n ∈ l, Node.to_mpv_node n ≠ .panicked) :
    encArrLoop l = some (l.filterMap fun n =>
      match Node.to_mpv_node n with | .ok m => some m | _ => none) := by
  induction l with
  | nil => rfl
  | cons hd tl ih =>
      have hhd := h hd (by simp)
      have htl : ∀ n ∈ tl, Node.to_mpv_node n ≠ .panicked := fun n hn => h n (by simp [hn])
      cases hc : Node.to_mpv_node hd with
      | panicked => exact absurd hc hhd
      | fail => simp [encArrLoop, hc, ih htl]
      | ok m => simp [encArrLoop, hc, ih htl]

/-- The `Map` encoding loop keeps exactly the entries whose value encoding
succeeds, pairing each with its NUL-free key, provided no value's encoding
aborts and no kept key has an interior NUL. -/
theorem encMapLoop_eq_filterMap (m : List (RStr × Node))
    (hv : ∀ p ∈ m, Node.to_mpv_node p.2 ≠ .panicked)
    (hk : ∀ p ∈ m, ∀ mn, Node.to_mpv_node p.2 = .ok mn → hasNull p.1 = false) :
    encMapLoop m = some
      (m.filterMap fun p =>
        match Node.to_mpv_node p.2 with | .ok mn => some mn | _ => none,
       m.filterMap fun p =>
        match Node.to_mpv_node p.2 with | .ok _ => some (CStr.valid p.1) | _ => none) := by
  induction m with
  | nil => rfl
  | cons hd tl ih =>
      obtain ⟨k, n⟩ := hd
      have hhd := hv (k, n) (by simp)
      have htlv : ∀ p ∈ tl, Node.to_mpv_node p.2 ≠ .panicked := fun p hp => hv p (by simp [hp])
      have htlk : ∀ p ∈ tl, ∀ mn, Node.to_mpv_node p.2 = .ok mn → hasNull p.1 = false :=
        fun p hp => hk p (by simp [hp])
      cases hc : Node.to_mpv_node n with
      | panicked => exact absurd hc hhd
      | fail => simp [encMapLoop, hc, ih htlv htlk]
      | ok mn =>
          have hnk : hasNull k = false := hk (k, n) (by simp) mn hc
          simp [encMapLoop, hc, make_c_string, hnk, ih htlv htlk]

/-- C2, amended.  Array encoding drops each child whose encoding fails and
succeeds whenever no child's encoding aborts; map encoding drops each
entry whose *value* encoding fails and succeeds under the additional
condition that no retained entry's key has an interior NUL — a retained
entry whose key does have one makes the encoding abort
(`make_c_string(key).unwrap()`) instead of being dropped. -/
theorem to_mpv_node_collection_drop_policy :
    (∀ l : List Node, (∀ n ∈ l, Node.to_mpv_node n ≠ .panicked) →
      ∃ data : List MNode,
        data = l.filterMap (fun n =>
          match Node.to_mpv_node n with | .ok m => some m | _ => none) ∧
        Node.to_mpv_node (.Array l) = .ok (.marr (intCast32 data.length) (some data) none)) ∧
    (∀ m : List (RStr × Node), (∀ p ∈ m, Node.to_mpv_node p.2 ≠ .panicked) →
      (∀ p ∈ m, ∀ mn, Node.to_mpv_node p.2 = .ok mn → hasNull p.1 = false) →
      ∃ (data : List MNode) (keys : List CStr),
        data = m.filterMap (fun p =>
          match Node.to_mpv_node p.2 with | .ok mn => some mn | _ => none) ∧
        keys = m.filterMap (fun p =>
          match Node.to_mpv_node p.2 with | .ok _ => some (CStr.valid p.1) | _ => none) ∧
        Node.to_mpv_node (.Map m) = .ok (.mmap (intCast32 data.length) (some data) (some keys))) ∧
    (∀ (k : RStr) (v : Node) (rest : List (RStr × Node)) (mn : MNode),
      Node.to_mpv_node v = .ok mn → hasNull k = true →
      Node.to_mpv_node (.Map ((k, v) :: rest)) = .panicked) := by
  refine ⟨fun l h => ⟨_, rfl, ?_⟩, fun m hv hk => ⟨_, _, rfl, rfl, ?_⟩, fun k v rest mn hc hnk => ?_⟩
  · simp [Node.to_mpv_node, encArrLoop_eq_filterMap l h]
  · simp [Node.to_mpv_node, encMapLoop_eq_filterMap m hv hk]
  · simp [Node.to_mpv_node, encMapLoop, hc, make_c_string, hnk]

/-- Witness for the amended C2: an array whose second child (a string with
an embedded NUL) is dropped; a map whose second entry's value fails and is
dropped; and a map whose retained first entry has a NUL key, aborting. -/
theorem to_mpv_node_collection_drop_policy_witness :
    (∃ data : List MNode,
      data = [Node.Flag true, Node.String "\x00"].filterMap (fun n =>
        match Node.to_mpv_node n with | .ok m => some m | _ => none) ∧
      Node.to_mpv_node (.Array [.Flag true, .String "\x00"])
        = .ok (.marr (intCast32 data.length) (some data) none)) ∧
    (∃ (data : List MNode) (keys : List CStr),
      data = [("k", Node.Int64 3), ("bad", Node.String "\x00")].filterMap (fun p =>
        match Node.to_mpv_node p.2 with | .ok mn => some mn | _ => none) ∧
      keys = [("k", Node.Int64 3), ("bad", Node.String "\x00")].filterMap (fun p =>
        match Node.to_mpv_node p.2 with | .ok _ => some (CStr.valid p.1) | _ => none) ∧
      Node.to_mpv_node (.Map [("k", .Int64 3), ("bad", .String "\x00")])
        = .ok (.mmap (intCast32 data.length) (some data) (some keys))) ∧
    Node.to_mpv_node (.Map [("a\x00", .Flag true)]) = .panicked := by
  refine ⟨to_mpv_node_collection_drop_policy.1 _ ?_,
    to_mpv_node_collection_drop_policy.2.1 _ ?_ ?_,
    to_mpv_node_collection_drop_policy.2.2 "a\x00" (.Flag true) [] (.mflag 1) rfl rfl⟩
  · intro n hn
    fin_cases hn <;> simp [Node.to_mpv_node, make_c_string, hasNull]
  · intro p hp
    fin_cases hp <;> simp [Node.to_mpv_node, make_c_string, hasNull]
  · intro p hp
    fin_cases hp <;> intro mn hmn <;> rfl

/-- The array decoding loop visits only the first `n` entries and keeps, in
order, exactly those that decode. -/
theorem decodeArrLoop_eq_filterMap :
    ∀ (n : Nat) (vs : List MNode),
      decodeArrLoop n vs = (vs.take n).filterMap Node.from_mpv_node := by
  intro n vs
  induction vs generalizing n with
  | nil => cases n <;> rfl
  | cons v vs ih =>
      cases n with
      | zero => rfl
      | succ n =>
          cases hc : Node.from_mpv_node v <;>
            simp [decodeArrLoop, hc, List.filterMap_cons, ih n]

/-- The map decoding loop visits only the first `n` value/key pairs and
inserts, in order, exactly those whose value decodes and whose key is
valid UTF-8. -/
theorem decodeMapLoop_eq_foldl :
    ∀ (n : Nat) (vs : List MNode) (ks : List CStr) (acc : List (RStr × Node)),
      decodeMapLoop n vs ks acc = List.foldl (fun acc p => mapInsert acc p.1 p.2) acc
        (((vs.take n).zip (ks.take n)).filterMap fun p =>
          match Node.from_mpv_node p.1, make_rust_string p.2 with
          | some nd, some k => some (k, nd)
          | _, _ => none) := by
  intro n vs
  induction vs generalizing n with
  | nil => intro ks acc; cases n <;> rfl
  | cons v vs ih =>
      intro ks acc
      cases n with
      | zero => rfl
      | succ n =>
          cases ks with
          | nil =>
              cases hc : Node.from_mpv_node v <;>
                simp [decodeMapLoop, hc, ih n [] acc]
          | cons k ktl =>
              cases hc : Node.from_mpv_node v with
              | none => simp [decodeMapLoop, hc, List.filterMap_cons, ih n ktl acc]
              | some nd =>
                  cases hk : make_rust_string k <;>
                    simp [decodeMapLoop, hc, hk, List.filterMap_cons, ih n ktl]

/-- `mapInsert` grows the association list by at most one binding. -/
theorem mapInsert_length_le (m : List (RStr × Node)) (k : RStr) (v : Node) :
    (mapInsert m k v).length ≤ m.length + 1 := by
  induction m with
  | nil => simp [mapInsert]
  | cons hd tl ih =>
      obtain ⟨k', v'⟩ := hd
      by_cases h : k' = k <;> simp [mapInsert, h] <;> omega

/-- Folding `mapInsert` over a list of bindings grows the accumulator by at
most the number of bindings. -/
theorem foldl_mapInsert_length_le (l : List (RStr × Node)) :
    ∀ acc : List (RStr × Node),
      (List.foldl (fun acc p => mapInsert acc p.1 p.2) acc l).length ≤ acc.length + l.length := by
  induction l with
  | nil => simp
  | cons hd tl ih =>
      intro acc
      calc (List.foldl (fun acc p => mapInsert acc p.1 p.2) (mapInsert acc hd.1 hd.2) tl).length
          ≤ (mapInsert acc hd.1 hd.2).length + tl.length := ih _
        _ ≤ acc.length + (tl.length + 1) := by
            have := mapInsert_length_le acc hd.1 hd.2
            omega
        _ = acc.length + (hd :: tl).length := by simp

/-- C5.  Decoding a foreign array or map collection with declared count
`num` reads at most the first `num` entries (the `take`), always succeeds
(`some`, regardless of undecodable elements), keeps exactly the elements —
for maps, the key/value pairs — that individually decode (the
`filterMap`), and therefore returns a collection of at most `num`
elements.  The entries beyond the model's lists, which the source could
only reach by reading out of bounds, are excluded by the foreign contract
(`values[0] … values[num-1]` valid). -/
theorem from_mpv_node_collection_decode :
    (∀ (num : Int) (values : List MNode) (keys : Option (List CStr)),
      Node.from_mpv_node (.marr num (some values) keys)
        = some (.Array ((values.take (usizeOfInt num)).filterMap Node.from_mpv_node)) ∧
      ((values.take (usizeOfInt num)).filterMap Node.from_mpv_node).length ≤ usizeOfInt num) ∧
    (∀ (num : Int) (values : List MNode) (keys : List CStr),
      Node.from_mpv_node (.mmap num (some values) (some keys))
        = some (.Map (List.foldl (fun acc p => mapInsert acc p.1 p.2) []
            (((values.take (usizeOfInt num)).zip (keys.take (usizeOfInt num))).filterMap fun p =>
              match Node.from_mpv_node p.1, make_rust_string p.2 with
              | some nd, some k => some (k, nd)
              | _, _ => none))) ∧
      (List.foldl (fun acc p => mapInsert acc p.1 p.2) []
        (((values.take (usizeOfInt num)).zip (keys.take (usizeOfInt num))).filterMap fun p =>
          match Node.from_mpv_node p.1, make_rust_string p.2 with
          | some nd, some k => some (k, nd)
          | _, _ => none)).length ≤ usizeOfInt num) := by
  constructor
  · intro num values keys
    constructor
    · simp [Node.from_mpv_node, decodeArrLoop_eq_filterMap]
    · calc ((values.take (usizeOfInt num)).filterMap Node.from_mpv_node).length
          ≤ (values.take (usizeOfInt num)).length := List.length_filterMap_le _ _
        _ ≤ usizeOfInt num := by simp [List.length_take]
  · intro num values keys
    constructor
    · simp [Node.from_mpv_node, decodeMapLoop_eq_foldl]
    · have h1 := foldl_mapInsert_length_le
        (((values.take (usizeOfInt num)).zip (keys.take (usizeOfInt num))).filterMap fun p =>
          match Node.from_mpv_node p.1, make_rust_string p.2 with
          | some nd, some k => some (k, nd)
          | _, _ => none) []
      have h2 := List.length_filterMap_le
        (fun p : MNode × CStr =>
          match Node.from_mpv_node p.1, make_rust_string p.2 with
          | some nd, some k => some (k, nd)
          | _, _ => none)
        ((values.take (usizeOfInt num)).zip (keys.take (usizeOfInt num)))
      have h3 : ((values.take (usizeOfInt num)).zip (keys.take (usizeOfInt num))).length
          ≤ usizeOfInt num := by simp [List.length_zip, List.length_take]
      simp only [List.length_nil, Nat.zero_add] at h1
      omega

attribute [simp] mpv_event_id_MPV_EVENT_SHUTDOWN mpv_event_id_MPV_EVENT_LOG_MESSAGE
  mpv_event_id_MPV_EVENT_GET_PROPERTY_REPLY mpv_event_id_MPV_EVENT_SET_PROPERTY_REPLY
  mpv_event_id_MPV_EVENT_COMMAND_REPLY mpv_event_id_MPV_EVENT_START_FILE
  mpv_event_id_MPV_EVENT_END_FILE mpv_event_id_MPV_EVENT_FILE_LOADED
  mpv_event_id_MPV_EVENT_IDLE mpv_event_id_MPV_EVENT_TICK
  mpv_event_id_MPV_EVENT_CLIENT_MESSAGE mpv_event_id_MPV_EVENT_VIDEO_RECONFIG
  mpv_event_id_MPV_EVENT_AUDIO_RECONFIG mpv_event_id_MPV_EVENT_SEEK
  mpv_event_id_MPV_EVENT_PLAYBACK_RESTART mpv_event_id_MPV_EVENT_PROPERTY_CHANGE
  mpv_event_id_MPV_EVENT_QUEUE_OVERFLOW mpv_event_id_MPV_EVENT_HOOK

/-- C6.  Every reply-style kind folds status and payload: a status that
classifies as an error yields `Err` with the payload never inspected, and
a success status yields `Ok` of the decoded payload, which may itself be
`None` — witnessed concretely by a property reply whose `data` pointer is
NULL (property unavailable, `Ok(Some(Property { data: None }))`) and a
command reply whose result node has format `NONE` (`Ok(None)`). -/
theorem from_mpv_event_reply_fold (er : Int) (ud : Nat) (p : MEventProperty) (n : MNode) :
    (Event.from_mpv_event ⟨mpv_event_id_MPV_EVENT_GET_PROPERTY_REPLY, er, ud, some (.prop p)⟩
      = some (some (.GetPropertyReply
          (match MpvError.from_mpv_error er with
           | some err => .error err
           | none => .ok (Property.from_mpv_property p)) ud), [.freeData])) ∧
    (Event.from_mpv_event ⟨mpv_event_id_MPV_EVENT_SET_PROPERTY_REPLY, er, ud, some (.prop p)⟩
      = some (some (.SetPropertyReply
          (match MpvError.from_mpv_error er with
           | some err => .error err
           | none => .ok (Property.from_mpv_property p)) ud), [.freeData])) ∧
    (Event.from_mpv_event ⟨mpv_event_id_MPV_EVENT_COMMAND_REPLY, er, ud, some (.command n)⟩
      = some (some (.CommandReply
          (match MpvError.from_mpv_error er with
           | some err => .error err
           | none => .ok (Node.from_mpv_node n)) ud), [.freeData])) ∧
    (Event.from_mpv_event ⟨mpv_event_id_MPV_EVENT_PROPERTY_CHANGE, er, ud, some (.prop p)⟩
      = some (some (.PropertyChange
          (match MpvError.from_mpv_error er with
           | some err => .error err
           | none => .ok (Property.from_mpv_property p)) ud), [.freeData])) ∧
    (Event.from_mpv_event
        ⟨mpv_event_id_MPV_EVENT_GET_PROPERTY_REPLY, 0, ud, some (.prop ⟨.valid "volume", none⟩)⟩
      = some (some (.GetPropertyReply (.ok (some ⟨"volume", none⟩)) ud), [.freeData])) ∧
    (Event.from_mpv_event ⟨mpv_event_id_MPV_EVENT_COMMAND_REPLY, 0, ud,
        some (.command (.mother mpv_format_MPV_FORMAT_NONE))⟩
      = some (some (.CommandReply (.ok none) ud), [.freeData])) := by
  refine ⟨?_, ?_, ?_, ?_, rfl, rfl⟩ <;>
    cases h : MpvError.from_mpv_error er <;>
      simp [Event.from_mpv_event, eventBranch, h]

/-- C7.  Every mandatory-payload kind treats a NULL payload pointer as a
fatal contract violation (`panic!`, the model's abnormal outcome `none`)
whenever payload interpretation is reached — unconditionally for log
message, start-file, end-file, client-message and hook, and on the success
path (status classifying as no error) for the three property replies and
the command reply. -/
theorem from_mpv_event_null_mandatory_payload_panics (er : Int) (ud : Nat)
    (h : MpvError.from_mpv_error er = none) :
    Event.from_mpv_event ⟨mpv_event_id_MPV_EVENT_LOG_MESSAGE, er, ud, none⟩ = none ∧
    Event.from_mpv_event ⟨mpv_event_id_MPV_EVENT_GET_PROPERTY_REPLY, er, ud, none⟩ = none ∧
    Event.from_mpv_event ⟨mpv_event_id_MPV_EVENT_SET_PROPERTY_REPLY, er, ud, none⟩ = none ∧
    Event.from_mpv_event ⟨mpv_event_id_MPV_EVENT_COMMAND_REPLY, er, ud, none⟩ = none ∧
    Event.from_mpv_event ⟨mpv_event_id_MPV_EVENT_START_FILE, er, ud, none⟩ = none ∧
    Event.from_mpv_event ⟨mpv_event_id_MPV_EVENT_END_FILE, er, ud, none⟩ = none ∧
    Event.from_mpv_event ⟨mpv_event_id_MPV_EVENT_CLIENT_MESSAGE, er, ud, none⟩ = none ∧
    Event.from_mpv_event ⟨mpv_event_id_MPV_EVENT_PROPERTY_CHANGE, er, ud, none⟩ = none ∧
    Event.from_mpv_event ⟨mpv_event_id_MPV_EVENT_HOOK, er, ud, none⟩ = none := by
  refine ⟨?_, ?_, ?_, ?_, ?_, ?_, ?_, ?_, ?_⟩ <;>
    simp [Event.from_mpv_event, eventBranch, h]

/-- Witness for C7 at the success status `0`. -/
theorem from_mpv_event_null_mandatory_payload_panics_witness :
    MpvError.from_mpv_error 0 = none ∧
    (Event.from_mpv_event ⟨mpv_event_id_MPV_EVENT_LOG_MESSAGE, 0, 0, none⟩ = none ∧
     Event.from_mpv_event ⟨mpv_event_id_MPV_EVENT_GET_PROPERTY_REPLY, 0, 0, none⟩ = none ∧
     Event.from_mpv_event ⟨mpv_event_id_MPV_EVENT_SET_PROPERTY_REPLY, 0, 0, none⟩ = none ∧
     Event.from_mpv_event ⟨mpv_event_id_MPV_EVENT_COMMAND_REPLY, 0, 0, none⟩ = none ∧
     Event.from_mpv_event ⟨mpv_event_id_MPV_EVENT_START_FILE, 0, 0, none⟩ = none ∧
     Event.from_mpv_event ⟨mpv_event_id_MPV_EVENT_END_FILE, 0, 0, none⟩ = none ∧
     Event.from_mpv_event ⟨mpv_event_id_MPV_EVENT_CLIENT_MESSAGE, 0, 0, none⟩ = none ∧
     Event.from_mpv_event ⟨mpv_event_id_MPV_EVENT_PROPERTY_CHANGE, 0, 0, none⟩ = none ∧
     Event.from_mpv_event ⟨mpv_event_id_MPV_EVENT_HOOK, 0, 0, none⟩ = none) :=
  ⟨rfl, from_mpv_event_null_mandatory_payload_panics 0 0 rfl⟩

set_option maxHeartbeats 1600000 in
/-- No branch of the `match event_id` ever frees the `data` payload
pointer itself (the client-message branch frees only its inner argument
array). -/
theorem eventBranch_count_freeData (e : MEvent) (res : Option Event) (tr : List FCall)
    (h : eventBranch e = some (res, tr)) : tr.count .freeData = 0 := by
  obtain ⟨id, er, ud, d⟩ := e
  by_cases h1 : id = mpv_event_id_MPV_EVENT_SHUTDOWN
  · subst h1
    simp only [eventBranch] at h
    simp at h
    repeat' split at h
    all_goals
      first
        | exact h.elim
        | exact Option.noConfusion h
        | (obtain ⟨hres, htr⟩ := h; subst htr; decide)
        | (obtain ⟨hres, htr⟩ := h; subst hres; decide)
        | (injection h with h2; injection h2 with hres htr; subst htr; decide)
  by_cases h2 : id = mpv_event_id_MPV_EVENT_LOG_MESSAGE
  · subst h2
    simp only [eventBranch] at h
    simp at h
    repeat' split at h
    all_goals
      first
        | exact h.elim
        | exact Option.noConfusion h
        | (obtain ⟨hres, htr⟩ := h; subst htr; decide)
        | (obtain ⟨hres, htr⟩ := h; subst hres; decide)
        | (injection h with h2; injection h2 with hres htr; subst htr; decide)
  by_cases h3 : id = mpv_event_id_MPV_EVENT_GET_PROPERTY_REPLY
  · subst h3
    simp only [eventBranch] at h
    simp at h
    repeat' split at h
    all_goals
      first
        | exact h.elim
        | exact Option.noConfusion h
        | (obtain ⟨hres, htr⟩ := h; subst htr; decide)
        | (obtain ⟨hres, htr⟩ := h; subst hres; decide)
        | (injection h with h2; injection h2 with hres htr; subst htr; decide)
  by_cases h4 : id = mpv_event_id_MPV_EVENT_SET_PROPERTY_REPLY
  · subst h4
    simp only [eventBranch] at h
    simp at h
    repeat' split at h
    all_goals
      first
        | exact h.elim
        | exact Option.noConfusion h
        | (obtain ⟨hres, htr⟩ := h; subst htr; decide)
        | (obtain ⟨hres, htr⟩ := h; subst hres; decide)
        | (injection h with h2; injection h2 with hres htr; subst htr; decide)
  by_cases h5 : id = mpv_event_id_MPV_EVENT_COMMAND_REPLY
  · subst h5
    simp only [eventBranch] at h
    simp at h
    repeat' split at h
    all_goals
      first
        | exact h.elim
        | exact Option.noConfusion h
        | (obtain ⟨hres, htr⟩ := h; subst htr; decide)
        | (obtain ⟨hres, htr⟩ := h; subst hres; decide)
        | (injection h with h2; injection h2 with hres htr; subst htr; decide)
  by_cases h6 : id = mpv_event_id_MPV_EVENT_START_FILE
  · subst h6
    simp only [eventBranch] at h
    simp at h
    repeat' split at h
    all_goals
      first
        | exact h.elim
        | exact Option.noConfusion h
        | (obtain ⟨hres, htr⟩ := h; subst htr; decide)
        | (obtain ⟨hres, htr⟩ := h; subst hres; decide)
        | (injection h with h2; injection h2 with hres htr; subst htr; decide)
  by_cases h7 : id = mpv_event_id_MPV_EVENT_END_FILE
  · subst h7
    simp only [eventBranch] at h
    simp at h
    repeat' split at h
    all_goals
      first
        | exact h.elim
        | exact Option.noConfusion h
        | (obtain ⟨hres, htr⟩ := h; subst htr; decide)
        | (obtain ⟨hres, htr⟩ := h; subst hres; decide)
        | (injection h with h2; injection h2 with hres htr; subst htr; decide)
  by_cases h8 : id = mpv_event_id_MPV_EVENT_FILE_LOADED
  · subst h8
    simp only [eventBranch] at h
    simp at h
    repeat' split at h
    all_goals
      first
        | exact h.elim
        | exact Option.noConfusion h
        | (obtain ⟨hres, htr⟩ := h; subst htr; decide)
        | (obtain ⟨hres, htr⟩ := h; subst hres; decide)
        | (injection h with h2; injection h2 with hres htr; subst htr; decide)
  by_cases h9 : id = mpv_event_id_MPV_EVENT_IDLE
  · subst h9
    simp only [eventBranch] at h
    simp at h
    repeat' split at h
    all_goals
      first
        | exact h.elim
        | exact Option.noConfusion h
        | (obtain ⟨hres, htr⟩ := h; subst htr; decide)
        | (obtain ⟨hres, htr⟩ := h; subst hres; decide)
        | (injection h with h2; injection h2 with hres htr; subst htr; decide)
  by_cases h10 : id = mpv_event_id_MPV_EVENT_TICK
  · subst h10
    simp only [eventBranch] at h
    simp at h
    repeat' split at h
    all_goals
      first
        | exact h.elim
        | exact Option.noConfusion h
        | (obtain ⟨hres, htr⟩ := h; subst htr; decide)
        | (obtain ⟨hres, htr⟩ := h; subst hres; decide)
        | (injection h with h2; injection h2 with hres htr; subst htr; decide)
  by_cases h11 : id = mpv_event_id_MPV_EVENT_CLIENT_MESSAGE
  · subst h11
    simp only [eventBranch] at h
    simp at h
    repeat' split at h
    all_goals
      first
        | exact h.elim
        | exact Option.noConfusion h
        | (obtain ⟨hres, htr⟩ := h; subst htr; decide)
        | (obtain ⟨hres, htr⟩ := h; subst hres; decide)
        | (injection h with h2; injection h2 with hres htr; subst htr; decide)
  by_cases h12 : id = mpv_event_id_MPV_EVENT_VIDEO_RECONFIG
  · subst h12
    simp only [eventBranch] at h
    simp at h
    repeat' split at h
    all_goals
      first
        | exact h.elim
        | exact Option.noConfusion h
        | (obtain ⟨hres, htr⟩ := h; subst htr; decide)
        | (obtain ⟨hres, htr⟩ := h; subst hres; decide)
        | (injection h with h2; injection h2 with hres htr; subst htr; decide)
  by_cases h13 : id = mpv_event_id_MPV_EVENT_AUDIO_RECONFIG
  · subst h13
    simp only [eventBranch] at h
    simp at h
    repeat' split at h
    all_goals
      first
        | exact h.elim
        | exact Option.noConfusion h
        | (obtain ⟨hres, htr⟩ := h; subst htr; decide)
        | (obtain ⟨hres, htr⟩ := h; subst hres; decide)
        | (injection h with h2; injection h2 with hres htr; subst htr; decide)
  by_cases h14 : id = mpv_event_id_MPV_EVENT_SEEK
  · subst h14
    simp only [eventBranch] at h
    simp at h
    repeat' split at h
    all_goals
      first
        | exact h.elim
        | exact Option.noConfusion h
        | (obtain ⟨hres, htr⟩ := h; subst htr; decide)
        | (obtain ⟨hres, htr⟩ := h; subst hres; decide)
        | (injection h with h2; injection h2 with hres htr; subst htr; decide)
  by_cases h15 : id = mpv_event_id_MPV_EVENT_PLAYBACK_RESTART
  · subst h15
    simp only [eventBranch] at h
    simp at h
    repeat' split at h
    all_goals
      first
        | exact h.elim
        | exact Option.noConfusion h
        | (obtain ⟨hres, htr⟩ := h; subst htr; decide)
        | (obtain ⟨hres, htr⟩ := h; subst hres; decide)
        | (injection h with h2; injection h2 with hres htr; subst htr; decide)
  by_cases h16 : id = mpv_event_id_MPV_EVENT_PROPERTY_CHANGE
  · subst h16
    simp only [eventBranch] at h
    simp at h
    repeat' split at h
    all_goals
      first
        | exact h.elim
        | exact Option.noConfusion h
        | (obtain ⟨hres, htr⟩ := h; subst htr; decide)
        | (obtain ⟨hres, htr⟩ := h; subst hres; decide)
        | (injection h with h2; injection h2 with hres htr; subst htr; decide)
  by_cases h17 : id = mpv_event_id_MPV_EVENT_QUEUE_OVERFLOW
  · subst h17
    simp only [eventBranch] at h
    simp at h
    repeat' split at h
    all_goals
      first
        | exact h.elim
        | exact Option.noConfusion h
        | (obtain ⟨hres, htr⟩ := h; subst htr; decide)
        | (obtain ⟨hres, htr⟩ := h; subst hres; decide)
        | (injection h with h2; injection h2 with hres htr; subst htr; decide)
  by_cases h18 : id = mpv_event_id_MPV_EVENT_HOOK
  · subst h18
    simp only [eventBranch] at h
    simp at h
    repeat' split at h
    all_goals
      first
        | exact h.elim
        | exact Option.noConfusion h
        | (obtain ⟨hres, htr⟩ := h; subst htr; decide)
        | (obtain ⟨hres, htr⟩ := h; subst hres; decide)
        | (injection h with h2; injection h2 with hres htr; subst htr; decide)
  · simp only [mpv_event_id_MPV_EVENT_SHUTDOWN, mpv_event_id_MPV_EVENT_LOG_MESSAGE,
      mpv_event_id_MPV_EVENT_GET_PROPERTY_REPLY, mpv_event_id_MPV_EVENT_SET_PROPERTY_REPLY,
      mpv_event_id_MPV_EVENT_COMMAND_REPLY, mpv_event_id_MPV_EVENT_START_FILE,
      mpv_event_id_MPV_EVENT_END_FILE, mpv_event_id_MPV_EVENT_FILE_LOADED,
      mpv_event_id_MPV_EVENT_IDLE, mpv_event_id_MPV_EVENT_TICK,
      mpv_event_id_MPV_EVENT_CLIENT_MESSAGE, mpv_event_id_MPV_EVENT_VIDEO_RECONFIG,
      mpv_event_id_MPV_EVENT_AUDIO_RECONFIG, mpv_event_id_MPV_EVENT_SEEK,
      mpv_event_id_MPV_EVENT_PLAYBACK_RESTART, mpv_event_id_MPV_EVENT_PROPERTY_CHANGE,
      mpv_event_id_MPV_EVENT_QUEUE_OVERFLOW, mpv_event_id_MPV_EVENT_HOOK]
      at h1 h2 h3 h4 h5 h6 h7 h8 h9 h10 h11 h12 h13 h14 h15 h16 h17 h18
    simp [eventBranch, h1, h2, h3, h4, h5, h6, h7, h8, h9, h10, h11, h12, h13, h14, h15, h16, h17, h18] at h
    repeat' split at h
    all_goals
      first
        | exact h.elim
        | exact Option.noConfusion h
        | (obtain ⟨hres, htr⟩ := h; subst htr; decide)
        | (obtain ⟨hres, htr⟩ := h; subst hres; decide)
        | (injection h with h2; injection h2 with hres htr; subst htr; decide)

/-- C4.  On every execution of `Event::from_mpv_event` that completes
normally — interpretation succeeded, produced an `Err` result, or hit an
unrecognized event-kind tag (`res = none`) alike — the payload pointer is
released via `mpv_free` exactly once when it is non-NULL, and never when
it is NULL. -/
theorem from_mpv_event_frees_payload_once (e : MEvent) (res : Option Event) (tr : List FCall)
    (h : Event.from_mpv_event e = some (res, tr)) :
    tr.count .freeData = if e.data.isSome then 1 else 0 := by
  unfold Event.from_mpv_event at h
  cases hb : eventBranch e with
  | none => rw [hb] at h; exact absurd h (by simp)
  | some rt =>
      obtain ⟨res0, tr0⟩ := rt
      rw [hb] at h
      simp only [Option.some.injEq, Prod.mk.injEq] at h
      obtain ⟨rfl, rfl⟩ := h
      have h0 := eventBranch_count_freeData e res0 tr0 hb
      cases e.data <;> simp [List.count_append, List.count_cons, h0]

/-- Witness for C4 at a command reply carrying a non-NULL `int64` node. -/
theorem from_mpv_event_frees_payload_once_witness :
    Event.from_mpv_event ⟨mpv_event_id_MPV_EVENT_COMMAND_REPLY, 0, 9,
        some (.command (.mint64 1))⟩
      = some (some (.CommandReply (.ok (some (.Int64 1))) 9), [.freeData]) ∧
    ([FCall.freeData] : List FCall).count .freeData
      = if (some (MEventData.command (.mint64 1)) : Option MEventData).isSome then 1 else 0 :=
  ⟨rfl, from_mpv_event_frees_payload_once
    ⟨mpv_event_id_MPV_EVENT_COMMAND_REPLY, 0, 9, some (.command (.mint64 1))⟩
    (some (.CommandReply (.ok (some (.Int64 1))) 9)) [.freeData] rfl⟩

/-! ## Round trip (claim C3) -/

mutual

/-- The precondition of the round-trip claim, on a single node: built only
from the `String`/`Flag`/`Int64`/`Float64`/`Array`/`Map`/`ByteArray`
variants (no `OsdString`, no `Node`), with no interior NULs in strings or
map keys.  Two conditions make the remaining "no element individually
fails to round-trip" precondition precise for collections: map keys are
pairwise distinct (the `HashMap` representation invariant), and collection
lengths fit in the `c_int` that `to_mpv_node` stores as the declared
count. -/
def rtGood : Node → Bool
  | .String s => !hasNull s
  | .OsdString _ => false
  | .Flag _ => true
  | .Int64 _ => true
  | .Float64 _ => true
  | .Array l => rtGoodList l && decide (l.length < 2 ^ 31)
  | .ByteArray _ => true
  | .Map m => rtGoodMap m && decide (m.length < 2 ^ 31) && decide ((m.map Prod.fst).Nodup)
  | .Node _ => false

/-- `rtGood` on every element of an array. -/
def rtGoodList : List Node → Bool
  | [] => true
  | n :: rest => rtGood n && rtGoodList rest

/-- NUL-free key and `rtGood` value for every entry of a map. -/
def rtGoodMap : List (RStr × Node) → Bool
  | [] => true
  | (k, n) :: rest => !hasNull k && rtGood n && rtGoodMap rest

end

/-- Encoding and then decoding a length below `2^31` is the identity:
`num = len as c_int` stores `len` itself, and `num as usize` reads it
back. -/
theorem usizeOfInt_intCast32 (k : Nat) (h : k < 2 ^ 31) :
    usizeOfInt (intCast32 k) = k := by
  unfold usizeOfInt intCast32
  omega

/-- Inserting a binding whose key is absent from the association list
appends it. -/
theorem mapInsert_append (acc : List (RStr × Node)) (k : RStr) (v : Node)
    (h : ∀ q ∈ acc, q.1 ≠ k) : mapInsert acc k v = acc ++ [(k, v)] := by
  induction acc with
  | nil => rfl
  | cons hd tl ih =>
      have hhd : hd.1 ≠ k := h hd (by simp)
      obtain ⟨k', v'⟩ := hd
      simp only [mapInsert, if_neg hhd, List.cons_append, List.cons.injEq, true_and]
      exact ih fun q hq => h q (by simp [hq])

mutual

/-- Round trip of a single `rtGood` node: its encoding succeeds and
decodes back to the node itself. -/
theorem rt_node : ∀ n : Node, rtGood n = true →
    ∃ m, Node.to_mpv_node n = .ok m ∧ Node.from_mpv_node m = some n
  | .String s, h => by
      have hs : hasNull s = false := by simpa [rtGood] using h
      exact ⟨.mstring (.valid s), by simp [Node.to_mpv_node, make_c_string, hs], rfl⟩
  | .OsdString s, h => by simp [rtGood] at h
  | .Flag b, _ => ⟨.mflag (if b then 1 else 0), rfl, by cases b <;> rfl⟩
  | .Int64 i, _ => ⟨.mint64 i, rfl, rfl⟩
  | .Float64 d, _ => ⟨.mdouble d, rfl, rfl⟩
  | .ByteArray b, _ => ⟨.mba b, rfl, rfl⟩
  | .Node n, h => by simp [rtGood] at h
  | .Array l, h => by
      have hl : rtGoodList l = true ∧ l.length < 2 ^ 31 := by
        simpa [rtGood, Bool.and_eq_true] using h
      obtain ⟨ms, he, hlen, hdec⟩ := rt_list l hl.1
      refine ⟨.marr (intCast32 ms.length) (some ms) none, ?_, ?_⟩
      · simp [Node.to_mpv_node, he]
      · have hc : usizeOfInt (intCast32 ms.length) = ms.length :=
          usizeOfInt_intCast32 _ (by omega)
        simp [Node.from_mpv_node, hc, hdec]
  | .Map m, h => by
      have hm : (rtGoodMap m = true ∧ m.length < 2 ^ 31) ∧ (m.map Prod.fst).Nodup := by
        simpa [rtGood, Bool.and_eq_true] using h
      obtain ⟨vs, ks, he, hvlen, hklen, hdec⟩ := rt_map m hm.1.1 hm.2
      refine ⟨.mmap (intCast32 vs.length) (some vs) (some ks), ?_, ?_⟩
      · simp [Node.to_mpv_node, he]
      · have hc : usizeOfInt (intCast32 m.length) = m.length :=
          usizeOfInt_intCast32 _ hm.1.2
        have hd := hdec [] (by simp)
        simp [Node.from_mpv_node, hvlen, hc, hd]

/-- Round trip of an array's element list: the encoding loop succeeds,
preserves length, and the decoding loop restores the list. -/
theorem rt_list : ∀ l : List Node, rtGoodList l = true →
    ∃ ms, encArrLoop l = some ms ∧ ms.length = l.length ∧ decodeArrLoop ms.length ms = l
  | [], _ => ⟨[], rfl, rfl, rfl⟩
  | n :: rest, h => by
      have hn : rtGood n = true ∧ rtGoodList rest = true := by
        simpa [rtGoodList, Bool.and_eq_true] using h
      obtain ⟨mn, hok, hdec⟩ := rt_node n hn.1
      obtain ⟨ms, he, hlen, hdecs⟩ := rt_list rest hn.2
      refine ⟨mn :: ms, ?_, by simp [hlen], ?_⟩
      · simp [encArrLoop, hok, he]
      · simp [decodeArrLoop, hdec, hdecs]

/-- Round trip of a map's entry list: the encoding loop succeeds,
preserves the lengths, and the decoding loop appends the original entries
to any accumulator whose keys are disjoint from the map's. -/
theorem rt_map : ∀ m : List (RStr × Node), rtGoodMap m = true → (m.map Prod.fst).Nodup →
    ∃ vs ks, encMapLoop m = some (vs, ks) ∧ vs.length = m.length ∧ ks.length = m.length ∧
      ∀ acc : List (RStr × Node), (∀ q ∈ acc, q.1 ∉ m.map Prod.fst) →
        decodeMapLoop m.length vs ks acc = acc ++ m
  | [], _, _ => ⟨[], [], rfl, rfl, rfl, fun acc _ => by simp [decodeMapLoop]⟩
  | (k, v) :: rest, h, hnd => by
      have hp : (hasNull k = false ∧ rtGood v = true) ∧ rtGoodMap rest = true := by
        simpa [rtGoodMap, Bool.and_eq_true] using h
      have hnd2 : k ∉ rest.map Prod.fst ∧ (rest.map Prod.fst).Nodup := by
        rw [List.map_cons] at hnd
        exact List.nodup_cons.mp hnd
      obtain ⟨mv, hok, hdec⟩ := rt_node v hp.1.2
      obtain ⟨vs, ks, he, hvlen, hklen, hdecs⟩ := rt_map rest hp.2 hnd2.2
      refine ⟨mv :: vs, .valid k :: ks, ?_, by simp [hvlen], by simp [hklen], ?_⟩
      · simp [encMapLoop, hok, make_c_string, hp.1.1, he]
      · intro acc hacc
        have hmem : ∀ q ∈ acc, q.1 ≠ k ∧ q.1 ∉ rest.map Prod.fst := by
          intro q hq
          have hknot := hacc q hq
          rw [List.map_cons, List.mem_cons] at hknot
          push_neg at hknot
          exact hknot
        have hstep : decodeMapLoop ((k, v) :: rest).length (mv :: vs) (.valid k :: ks) acc
            = decodeMapLoop rest.length vs ks (mapInsert acc k v) := by
          simp [decodeMapLoop, hdec, make_rust_string]
        rw [hstep, mapInsert_append acc k v (fun q hq => (hmem q hq).1),
          hdecs (acc ++ [(k, v)]) ?_]
        · simp
        · intro q hq
          rcases List.mem_append.mp hq with hq | hq
          · exact (hmem q hq).2
          · simp at hq
            subst hq
            exact hnd2.1

end

/-- C3.  For every node built only from the
`String`/`Flag`/`Int64`/`Float64`/`Array`/`Map`/`ByteArray` variants
whose strings (including map keys) contain no embedded NULs and in which
no element fails to round-trip (`rtGood`), encoding then decoding yields
a value equal to the original node. -/
theorem node_roundtrip (n : Node) (h : rtGood n = true) :
    ∃ m, Node.to_mpv_node n = .ok m ∧ Node.from_mpv_node m = some n :=
  rt_node n h

/-- Witness for C3 at a nested map/array/scalar node. -/
theorem node_roundtrip_witness :
    rtGood (.Map [("a", .Array [.Int64 3, .String "x"]), ("b", .Flag true)]) = true ∧
    ∃ m, Node.to_mpv_node (.Map [("a", .Array [.Int64 3, .String "x"]), ("b", .Flag true)])
        = .ok m ∧
      Node.from_mpv_node m
        = some (.Map [("a", .Array [.Int64 3, .String "x"]), ("b", .Flag true)]) :=
  ⟨by decide, node_roundtrip _ (by decide)⟩

end LibMpv
